import Mathlib

/-!
Verification of the `hfprop` package (Go) against its specification.

Shallow embedding conventions:
* Go strings are modelled as `List Char`; the stream handed to the decoder
  loop of `GetGiroData` is modelled as the list of its lines.
* `float64` values are modelled as exact rationals (`ℚ`) on the decoder side
  (parsed field values) and as real numbers (`ℝ`) on the geometry side
  (`TOA`, `Distance`), i.e. the geometry is verified over the idealized
  real-number model of the floating-point computation.
* Go standard-library functions used by the source (`strings.Fields`,
  `strings.TrimSpace`, `strings.HasPrefix`, `time.Parse` with the fixed
  layout `2006-01-02T15:04:05.000Z`, `fmt.Sscanf` with `%f`,
  `fmt.Sprintf` with `%.0f`) are modelled by explicit Lean functions,
  each documented at its definition.
* The process-wide mutable package variables (`DMUF`) are modelled by
  explicit state passing (`HfpropState`).
-/

namespace Hfprop

/-! ## Models of the Go standard-library string helpers -/

/-- Model of Go `unicode.IsSpace` restricted to the Latin-1 space characters
(the characters that can actually occur in the service's line protocol). -/
def goIsSpace (c : Char) : Bool :=
  c = ' ' || c = '\t' || c = '\n' || c = '\x0b' || c = '\x0c' || c = '\r' ||
  c = '\u0085' || c = ' '

/-- Model of Go `strings.TrimSpace`: drop leading and trailing white space. -/
def goTrimSpace (cs : List Char) : List Char :=
  ((cs.dropWhile goIsSpace).reverse.dropWhile goIsSpace).reverse

/-- Model of Go `strings.HasPrefix`. -/
def goStartsWith (pre cs : List Char) : Bool :=
  pre.isPrefixOf cs

/-- Worker for `goFields`; accumulates the current field in reverse order. -/
def fieldsAux : List Char → List Char → List (List Char)
  | [], acc => if acc.isEmpty then [] else [acc.reverse]
  | c :: rest, acc =>
    if goIsSpace c then
      if acc.isEmpty then fieldsAux rest [] else acc.reverse :: fieldsAux rest []
    else fieldsAux rest (c :: acc)

/-- Model of Go `strings.Fields`: split around maximal runs of white space,
returning only the non-empty fields. -/
def goFields (cs : List Char) : List (List Char) :=
  fieldsAux cs []

/-! ## Model of `time.Parse` with layout `2006-01-02T15:04:05.000Z` -/

/-- Numeric value of a digit character. -/
def digitVal (c : Char) : ℕ := c.toNat - 48

/-- Model of Go `time.getnum`: reads two digits, or (when `fixed` is false)
a single digit when the second character is not a digit. -/
def getnum (fixed : Bool) (cs : List Char) : Option (ℕ × List Char) :=
  match cs with
  | c1 :: c2 :: rest =>
    if c1.isDigit then
      if c2.isDigit then some (10 * digitVal c1 + digitVal c2, rest)
      else if fixed then none
      else some (digitVal c1, c2 :: rest)
    else none
  | [c1] => if c1.isDigit && !fixed then some (digitVal c1, []) else none
  | [] => none

/-- Reads exactly four digits (the `2006` year field of the layout). -/
def getnum4 (cs : List Char) : Option (ℕ × List Char) :=
  match cs with
  | c1 :: c2 :: c3 :: c4 :: rest =>
    if c1.isDigit && c2.isDigit && c3.isDigit && c4.isDigit then
      some (1000 * digitVal c1 + 100 * digitVal c2 + 10 * digitVal c3 + digitVal c4, rest)
    else none
  | _ => none

/-- Reads exactly three digits (the `.000` millisecond field of the layout). -/
def getnum3 (cs : List Char) : Option (ℕ × List Char) :=
  match cs with
  | c1 :: c2 :: c3 :: rest =>
    if c1.isDigit && c2.isDigit && c3.isDigit then
      some (100 * digitVal c1 + 10 * digitVal c2 + digitVal c3, rest)
    else none
  | _ => none

/-- Consumes one expected literal character of the layout. -/
def lit (c : Char) : List Char → Option (List Char)
  | x :: rest => if x = c then some rest else none
  | [] => none

/-- Model of Go `time.isLeap`. -/
def isLeap (year : ℕ) : Bool :=
  year % 4 = 0 && (year % 100 != 0 || year % 400 = 0)

/-- Model of Go `time.daysIn`: days in a month, honouring leap years. -/
def daysIn (month year : ℕ) : ℕ :=
  if month = 2 then (if isLeap year then 29 else 28)
  else if month = 4 || month = 6 || month = 9 || month = 11 then 30
  else 31

/-- A parsed UTC timestamp of the wire format (millisecond precision). -/
structure GiroTime where
  year : ℕ
  month : ℕ
  day : ℕ
  hour : ℕ
  minute : ℕ
  second : ℕ
  millis : ℕ
deriving DecidableEq

/-- The `2006-01-02` date part of the layout: four-digit year, literal `-`,
two-digit month, literal `-`, two-digit day. -/
def parseDatePart (cs : List Char) : Option (ℕ × ℕ × ℕ × List Char) :=
  match getnum4 cs with
  | none => none
  | some (year, r) =>
    match lit '-' r with
    | none => none
    | some r =>
      match getnum true r with
      | none => none
      | some (month, r) =>
        match lit '-' r with
        | none => none
        | some r =>
          match getnum true r with
          | none => none
          | some (day, r) => some (year, month, day, r)

/-- The `15:04:05` clock part of the layout: one- or two-digit hour (Go's
`15` layout field is not fixed-width), literal `:`, two-digit minute,
literal `:`, two-digit second. -/
def parseClockPart (cs : List Char) : Option (ℕ × ℕ × ℕ × List Char) :=
  match getnum false cs with
  | none => none
  | some (hour, r) =>
    match lit ':' r with
    | none => none
    | some r =>
      match getnum true r with
      | none => none
      | some (minute, r) =>
        match lit ':' r with
        | none => none
        | some r =>
          match getnum true r with
          | none => none
          | some (second, r) => some (hour, minute, second, r)

/-- The `.000Z` tail of the layout: literal `.`, exactly three digits,
literal `Z`, and then the end of the input (`time.Parse` rejects extra
text after the layout is exhausted). -/
def parseMillisPart (cs : List Char) : Option ℕ :=
  match lit '.' cs with
  | none => none
  | some r =>
    match getnum3 r with
    | none => none
    | some (millis, r) =>
      match lit 'Z' r with
      | none => none
      | some r => if r.isEmpty then some millis else none

/-- Model of Go `time.Parse(GiroTimeFormatOut, s)` with
`GiroTimeFormatOut = "2006-01-02T15:04:05.000Z"`: the three layout parts
joined by the literal `T`, plus the range checks Go performs
(month 1–12, day valid for the month, hour ≤ 23, minute ≤ 59, second ≤ 59). -/
def parseGiroTime (cs : List Char) : Option GiroTime :=
  match parseDatePart cs with
  | none => none
  | some (year, month, day, r) =>
    match lit 'T' r with
    | none => none
    | some r =>
      match parseClockPart r with
      | none => none
      | some (hour, minute, second, r) =>
        match parseMillisPart r with
        | none => none
        | some millis =>
          if 1 ≤ month && month ≤ 12 && 1 ≤ day && day ≤ daysIn month year &&
              hour ≤ 23 && minute ≤ 59 && second ≤ 59 then
            some ⟨year, month, day, hour, minute, second, millis⟩
          else none

/-! ## Model of `fmt.Sscanf(field, "%f", &v)` -/

/-- Numeric value of a digit string. -/
def digitsToNat (ds : List Char) : ℕ :=
  ds.foldl (fun acc c => 10 * acc + digitVal c) 0

/-- Splits off a maximal leading run of digits. -/
def takeDigits (cs : List Char) : List Char × List Char :=
  (cs.takeWhile Char.isDigit, cs.dropWhile Char.isDigit)

/-- The exact rational `±m · 10^k` of a decoded decimal token, built with
`Rat.normalize` so that concrete values evaluate inside the kernel. -/
def ratOfDec (neg : Bool) (m : ℕ) (k : ℤ) : ℚ :=
  let n : ℤ := if neg then -(m : ℤ) else (m : ℤ)
  if 0 ≤ k then Rat.normalize (n * 10 ^ k.toNat) 1 one_ne_zero
  else Rat.normalize n ((10 : ℕ) ^ (-k).toNat) (pow_ne_zero _ (by norm_num))

/-- Exponent part of the float token: optional sign, then digits, which must
be non-empty for `strconv.ParseFloat` to accept the token; yields
`±m · 10^(e - flen)` where `flen` is the number of fractional digits. -/
def parseExpPart (neg : Bool) (m : ℕ) (flen : ℕ) (cs : List Char) : Option ℚ :=
  let (eneg, r) : Bool × List Char :=
    match cs with
    | '+' :: r => (false, r)
    | '-' :: r => (true, r)
    | r => (false, r)
  let (eds, _) := takeDigits r
  if eds.isEmpty then none
  else
    let e : ℤ := if eneg then -(digitsToNat eds : ℤ) else (digitsToNat eds : ℤ)
    some (ratOfDec neg m (e - flen))

/-- Model of `fmt.Sscanf(field, "%f", &v)` for finite decimal forms: the
scanner greedily reads a float token — optional sign, digits, at most one
decimal point, optional exponent — and succeeds when `strconv.ParseFloat`
accepts the token (at least one mantissa digit, and exponent digits when an
exponent marker is present). Trailing characters that are not part of the
token are ignored, as `Sscanf` ignores unconsumed input. The special forms
`Inf`/`NaN` and hexadecimal floats are not modelled; the parsed value is
exact (`ℚ`): the integer and fraction digits form the mantissa `m` and the
value is `±m · 10^(e - flen)`. -/
def parseValue (cs : List Char) : Option ℚ :=
  let (neg, r1) : Bool × List Char :=
    match cs with
    | '+' :: r => (false, r)
    | '-' :: r => (true, r)
    | r => (false, r)
  let (ipart, r2) := takeDigits r1
  let (fpart, r3) :=
    match r2 with
    | '.' :: r => takeDigits r
    | r => (([] : List Char), r)
  if ipart.isEmpty && fpart.isEmpty then none
  else
    let m : ℕ := digitsToNat (ipart ++ fpart)
    match r3 with
    | 'e' :: r => parseExpPart neg m fpart.length r
    | 'E' :: r => parseExpPart neg m fpart.length r
    | _ => some (ratOfDec neg m (-(fpart.length : ℤ)))

/-! ## The decoder of `GetGiroData` -/

/-- One measurement, as in the Go `GiroData` struct. -/
structure GiroData where
  Time : GiroTime
  Parameter : String
  Value : ℚ
deriving DecidableEq

/-- Classification of one line by the body of the decoding loop. -/
inductive LineStep where
  | skip : LineStep
  | serviceError : List Char → LineStep
  | timeError : List Char → LineStep
  | valueError : List Char → LineStep
  | measurement : GiroData → LineStep
deriving DecidableEq

/-- The errors the decoding loop can return: the in-band `ERROR: ` message
(`errors.New` on the trimmed remainder), a `time.Parse` failure, or an
`fmt.Sscanf` failure. -/
inductive DecodeError where
  | serviceError : List Char → DecodeError
  | timeError : List Char → DecodeError
  | valueError : List Char → DecodeError
deriving DecidableEq

/-- The body of the scanning loop of `GetGiroData`, line by line:
1. lines starting with `#`, or blank after trimming, are skipped;
2. lines starting with `ERROR: ` stop decoding with the trimmed remainder
   (`strings.Cut` after a successful `strings.HasPrefix` drops exactly the
   prefix) as a service-reported error;
3. lines with fewer than 3 whitespace-separated fields are skipped;
4. field 0 must parse as a timestamp, field 2 as a float; the first failure
   stops decoding; otherwise the line yields a measurement. -/
def decodeLine (parameter : String) (line : List Char) : LineStep :=
  if goStartsWith ("#".data) line || (goTrimSpace line).isEmpty then .skip
  else if goStartsWith ("ERROR: ".data) line then
    .serviceError (goTrimSpace (line.drop ("ERROR: ".data.length)))
  else
    match goFields line with
    | f0 :: _ :: f2 :: _ =>
      match parseGiroTime f0 with
      | none => .timeError f0
      | some t =>
        match parseValue f2 with
        | none => .valueError f2
        | some v => .measurement ⟨t, parameter, v⟩
    | _ => .skip

/-- The two-pointer swapping loop of the Go `ReverseGiroData`: indices `i`
from the front and `j` from the back, swapping while `i < j`. The
`j < s.length` bound in the guard records the loop invariant of the Go code
(`j` starts at `len(s)-1` and only decreases). -/
def swapEnds {α : Type} (s : List α) (i j : ℕ) : List α :=
  if h : i < j ∧ j < s.length then
    swapEnds ((s.set i (s.get ⟨j, h.2⟩)).set j (s.get ⟨i, Nat.lt_trans h.1 h.2⟩)) (i + 1) (j - 1)
  else s
termination_by j - i

/-- Model of the Go `ReverseGiroData`: reverse the slice in place with the
two-pointer swap loop. -/
def ReverseGiroData (s : List GiroData) : List GiroData :=
  swapEnds s 0 (s.length - 1)

/-- The scanning loop of `GetGiroData` over the response lines, carrying the
accumulated `gds` slice. On normal end of stream the slice is reversed
(`ReverseGiroData`) and returned without error; every error path returns the
accumulated slice as is, unreversed, together with the error. -/
def decodeLoop (parameter : String) : List (List Char) → List GiroData →
    List GiroData × Option DecodeError
  | [], gds => (ReverseGiroData gds, none)
  | line :: rest, gds =>
    match decodeLine parameter line with
    | .skip => decodeLoop parameter rest gds
    | .serviceError msg => (gds, some (.serviceError msg))
    | .timeError fld => (gds, some (.timeError fld))
    | .valueError fld => (gds, some (.valueError fld))
    | .measurement gd => decodeLoop parameter rest (gds ++ [gd])

/-- The decoding part of `GetGiroData`: the response body, already split into
lines by `bufio.Scanner`, is decoded starting from the empty slice. The
request-building and transport part of `GetGiroData` is modelled separately
(`giroQueryValues`). -/
def getGiroData (parameter : String) (lines : List (List Char)) :
    List GiroData × Option DecodeError :=
  decodeLoop parameter lines []

/-! ## Helpers used to state properties of the decoder -/

/-- A line is good when the loop body neither stops nor errors on it. -/
def isGoodLine (parameter : String) (line : List Char) : Bool :=
  match decodeLine parameter line with
  | .skip => true
  | .measurement _ => true
  | _ => false

/-- The error, if any, produced by one line step. -/
def errOf : LineStep → Option DecodeError
  | .serviceError msg => some (.serviceError msg)
  | .timeError fld => some (.timeError fld)
  | .valueError fld => some (.valueError fld)
  | _ => none

/-- The measurements contributed by `lines`, appended to `gds` in wire order
(the order the lines arrive in), with no reversal. -/
def wireAcc (parameter : String) : List (List Char) → List GiroData → List GiroData
  | [], gds => gds
  | line :: rest, gds =>
    match decodeLine parameter line with
    | .measurement gd => wireAcc parameter rest (gds ++ [gd])
    | _ => wireAcc parameter rest gds

/-- The measurements of `lines` in wire order. -/
def wireMeasurements (parameter : String) (lines : List (List Char)) : List GiroData :=
  wireAcc parameter lines []

/-! ## The request-building part of `GetGiroData` and the package variables -/

/-- The package variable `DefaultDMUF`. -/
def DefaultDMUF : String := "3000"

/-- The query key `LgdcKeyUrsiCode`. -/
def LgdcKeyUrsiCode : String := "ursiCode"

/-- The query key `LgdcKeyCharName`. -/
def LgdcKeyCharName : String := "charName"

/-- The query key `LgdcKeyDMUF`. -/
def LgdcKeyDMUF : String := "DMUF"

/-- The query key `LgdcKeyFromDate`. -/
def LgdcKeyFromDate : String := "fromDate"

/-- The query key `LgdcKeyToDate`. -/
def LgdcKeyToDate : String := "toDate"

/-- The package default station code. -/
def DefaultUrsiCode : String := "JR055"

/-- The mutable package state: the `DMUF` variable, initialised to
`DefaultDMUF` and written by `SetDistanceForMUF`. -/
structure HfpropState where
  DMUF : String
deriving DecidableEq

/-- The state at process start: `DMUF = DefaultDMUF`. -/
def initState : HfpropState := { DMUF := DefaultDMUF }

/-- Model of Go `fmt.Sprintf("%.0f", km)` on an exact value: round to the
nearest integer, ties to even, and render in decimal. The floor and the
comparison of the fractional part with one half are carried out on the
numerator and denominator so that concrete values evaluate in the kernel. -/
def sprintf0f (km : ℚ) : String :=
  let f : ℤ := Int.fdiv km.num (km.den : ℤ)
  let r2 : ℤ := km.num - f * (km.den : ℤ)
  let n : ℤ :=
    if 2 * r2 > (km.den : ℤ) then f + 1
    else if 2 * r2 < (km.den : ℤ) then f
    else if f % 2 = 0 then f else f + 1
  toString n

/-- Model of `SetDistanceForMUF`: writes `fmt.Sprintf("%.0f", km)` to the
package variable `DMUF`. -/
def SetDistanceForMUF (km : ℚ) (st : HfpropState) : HfpropState :=
  { st with DMUF := sprintf0f km }

/-- The query parameters `GetGiroData` places in the GET request, in the
order of the `url.Values` literal of the source. The source reads the
package variable `DefaultDMUF` — not `DMUF` — for the `DMUF` key; the
state argument records that the configured `DMUF` value was available to
the call and is nevertheless not consulted. -/
def giroQueryValues (_st : HfpropState) (parameter ursiCode fromDate toDate : String) :
    List (String × String) :=
  [(LgdcKeyUrsiCode, ursiCode), (LgdcKeyCharName, parameter), (LgdcKeyDMUF, DefaultDMUF),
    (LgdcKeyFromDate, fromDate), (LgdcKeyToDate, toDate)]

/-! ## The geometry engine -/

open Real in
/-- Model of the Go `TOA`, transliterated over `ℝ`: spherical Earth of
circumference 40000 km, `earthAngleA` the central angle subtended by the
ground distance, `horizontal`/`vertical` the chord projections, and the
take-off angle obtained from `atan` and converted to degrees. Go's
`math.Tan` does not appear in the source; it computes the tangent as
`sin/cos`, kept as such here. -/
noncomputable def TOA (distance hmf2 : ℝ) : ℝ :=
  let earthRadius : ℝ := 40000 / 2 / π
  let earthAngleA : ℝ := distance / 40000 * (2 * π)
  let horizontal : ℝ := earthRadius * Real.sin (earthAngleA / 2)
  let tangentvalue : ℝ := (π - earthAngleA / 2) / 2
  let vertical : ℝ := horizontal / (Real.sin tangentvalue / Real.cos tangentvalue)
  let takeOffAngle : ℝ := Real.arctan ((vertical + hmf2) / horizontal) - earthAngleA / 2
  takeOffAngle / π * 180

/-- The Earth radius `40000 / 2 / π` of the source, simplified. -/
noncomputable def earthR : ℝ := 20000 / Real.pi

/-- The algebraic core of `TOA` as a function of the half central angle
`t = distance · π / 40000`: the source's `vertical` equals
`earthR · (1 - cos t)` and its `horizontal` equals `earthR · sin t`
(`TOA_eq_toaCore`), which is the form the monotonicity analysis uses. -/
noncomputable def toaCore (t h : ℝ) : ℝ :=
  (Real.arctan ((earthR * (1 - Real.cos t) + h) / (earthR * Real.sin t)) - t) /
    Real.pi * 180

/-- The `maxDistance` bound computed at the start of the Go `Distance`:
`math.Round(40000 / 2 / math.Pi)`. -/
noncomputable def maxDistanceZ : ℤ := round ((40000 : ℝ) / 2 / Real.pi)

/-- `maxDistance` as the real number the Go code holds in its float variable. -/
noncomputable def maxDistance : ℝ := (maxDistanceZ : ℝ)

open Classical in
/-- The scanning loop of the Go `Distance`: the float loop counter takes the
integer values `1, 2, …`, modelled by `d : ℕ`; while `d < maxD` compute
`TOA d hmf2` and return `d - 1` the moment it drops below `toa`, otherwise
return the final counter value (which is `maxD` when started at `1 ≤ maxD`). -/
noncomputable def distanceLoop (toa hmf2 : ℝ) (maxD : ℕ) (d : ℕ) : ℝ :=
  if d < maxD then
    if TOA (d : ℝ) hmf2 < toa then (d : ℝ) - 1
    else distanceLoop toa hmf2 maxD (d + 1)
  else (d : ℝ)
termination_by maxD - d

/-- Model of the Go `Distance`: linear scan from 1 km bounded by
`maxDistance`. -/
noncomputable def Distance (toa hmf2 : ℝ) : ℝ :=
  distanceLoop toa hmf2 maxDistanceZ.toNat 1

/-! ## The propagation service (`DistanceByTOA`, `LatestTOA`) -/

/-- The errors of `DistanceByTOA`/`LatestTOA`: the error propagated from
`GetGiroData`, the "unable to get latest hmF2" error on an empty series,
and the "unable to get a valid hmF2 value" error on a too-small latest
value. -/
inductive PropError where
  | fetchError : DecodeError → PropError
  | noData : String → PropError
  | invalidValue : String → PropError
deriving DecidableEq

/-- Model of the Go `DistanceByTOA` after the station-code defaulting: the
result of the `GetGiroData` call for `hmF2` over the trailing hour is passed
in explicitly (`fetched`), the network being outside the model. A fetch
error is returned first; then an empty series fails with the no-data error;
then a latest value `< 10.0` fails with the invalid-value error; otherwise
`Distance` is applied to the latest value. -/
noncomputable def DistanceByTOA (toa : ℝ) (digisonde : String)
    (fetched : List GiroData × Option DecodeError) : Except PropError ℝ :=
  match fetched.2 with
  | some e => .error (.fetchError e)
  | none =>
    match fetched.1 with
    | [] => .error (.noData digisonde)
    | gd0 :: _ =>
      if gd0.Value < 10 then .error (.invalidValue digisonde)
      else .ok (Distance toa (gd0.Value : ℝ))

/-- Model of the Go `LatestTOA`, symmetric to `DistanceByTOA` with `TOA`
in place of `Distance`. -/
noncomputable def LatestTOA (distance : ℝ) (digisonde : String)
    (fetched : List GiroData × Option DecodeError) : Except PropError ℝ :=
  match fetched.2 with
  | some e => .error (.fetchError e)
  | none =>
    match fetched.1 with
    | [] => .error (.noData digisonde)
    | gd0 :: _ =>
      if gd0.Value < 10 then .error (.invalidValue digisonde)
      else .ok (TOA distance (gd0.Value : ℝ))

/-! ## The two-pointer swap loop implements reversal -/

lemma swapEnds_length {α : Type} (s : List α) (i j : ℕ) :
    (swapEnds s i j).length = s.length := by
  induction s, i, j using swapEnds.induct with
  | case1 s i j h ih =>
    rw [swapEnds, dif_pos h]
    simpa using ih
  | case2 s i j h =>
    rw [swapEnds, dif_neg h]

lemma swapEnds_getElem? {α : Type} (s : List α) (i j : ℕ) (hj : j < s.length) (k : ℕ) :
    (swapEnds s i j)[k]? = if i ≤ k ∧ k ≤ j then s[i + j - k]? else s[k]? := by
  induction s, i, j using swapEnds.induct with
  | case1 s i j h ih =>
    rw [swapEnds, dif_pos h]
    have hlen : ((s.set i (s.get ⟨j, h.2⟩)).set j (s.get ⟨i, Nat.lt_trans h.1 h.2⟩)).length
        = s.length := by simp
    have hj' : j - 1 < ((s.set i (s.get ⟨j, h.2⟩)).set j
        (s.get ⟨i, Nat.lt_trans h.1 h.2⟩)).length := by omega
    rw [ih hj']
    have hgj : s[j]? = some (s.get ⟨j, h.2⟩) := by
      rw [List.getElem?_eq_getElem h.2]; rfl
    have hgi : s[i]? = some (s.get ⟨i, Nat.lt_trans h.1 h.2⟩) := by
      rw [List.getElem?_eq_getElem (Nat.lt_trans h.1 h.2)]; rfl
    by_cases hk1 : i + 1 ≤ k ∧ k ≤ j - 1
    · rw [if_pos hk1, if_pos (by omega)]
      have hm : i + 1 + (j - 1) - k = i + j - k := by omega
      rw [hm]
      rw [List.getElem?_set, List.getElem?_set]
      rw [if_neg (by omega), if_neg (by omega)]
    · rw [if_neg hk1]
      by_cases hki : k = i
      · rw [hki]
        rw [if_pos (by omega)]
        rw [List.getElem?_set, List.getElem?_set]
        rw [if_neg (by omega), if_pos rfl, if_pos (by simpa using Nat.lt_trans h.1 h.2)]
        have hm : i + j - i = j := by omega
        rw [hm, hgj]
      · by_cases hkj : k = j
        · rw [hkj]
          rw [if_pos (by omega)]
          rw [List.getElem?_set, if_pos rfl, if_pos (by simpa using h.2)]
          have hm : i + j - j = i := by omega
          rw [hm, hgi]
        · rw [if_neg (by omega)]
          rw [List.getElem?_set, List.getElem?_set]
          rw [if_neg (by omega), if_neg (by omega)]
  | case2 s i j h =>
    rw [swapEnds, dif_neg h]
    by_cases hk : i ≤ k ∧ k ≤ j
    · rw [if_pos hk]
      have : i + j - k = k := by omega
      rw [this]
    · rw [if_neg hk]

/-- The Go two-pointer `ReverseGiroData` computes `List.reverse`. -/
lemma ReverseGiroData_eq_reverse (s : List GiroData) : ReverseGiroData s = s.reverse := by
  unfold ReverseGiroData
  rcases s with _ | ⟨a, tl⟩
  · rw [swapEnds]
    simp
  · apply List.ext_getElem?
    intro k
    have hlen : (a :: tl).length = tl.length + 1 := rfl
    have hj : (a :: tl).length - 1 < (a :: tl).length := by simp
    rw [swapEnds_getElem? (a :: tl) 0 ((a :: tl).length - 1) hj k]
    by_cases hk : k < (a :: tl).length
    · rw [if_pos (by omega)]
      rw [List.getElem?_reverse hk]
      have : 0 + ((a :: tl).length - 1) - k = (a :: tl).length - 1 - k := by omega
      rw [this]
    · rw [if_neg (by omega)]
      rw [List.getElem?_eq_none (by omega), List.getElem?_eq_none (by simpa using by omega)]

/-! ## Behaviour of the decoding loop -/

lemma decodeLoop_append_good (p : String) (pre : List (List Char))
    (hpre : ∀ l ∈ pre, isGoodLine p l = true) (rest : List (List Char)) (gds : List GiroData) :
    decodeLoop p (pre ++ rest) gds = decodeLoop p rest (wireAcc p pre gds) := by
  induction pre generalizing gds with
  | nil => rfl
  | cons l tl ih =>
    have hl : isGoodLine p l = true := hpre l (by simp)
    have htl : ∀ x ∈ tl, isGoodLine p x = true := fun x hx => hpre x (by simp [hx])
    rw [List.cons_append]
    cases hd : decodeLine p l with
    | skip =>
      rw [decodeLoop, hd, wireAcc, hd]
      exact ih htl gds
    | measurement gd =>
      rw [decodeLoop, hd, wireAcc, hd]
      exact ih htl (gds ++ [gd])
    | serviceError msg => simp [isGoodLine, hd] at hl
    | timeError fld => simp [isGoodLine, hd] at hl
    | valueError fld => simp [isGoodLine, hd] at hl

lemma decodeLoop_error_line (p : String) (line : List Char) (rest : List (List Char))
    (gds : List GiroData) (e : DecodeError) (h : errOf (decodeLine p line) = some e) :
    decodeLoop p (line :: rest) gds = (gds, some e) := by
  cases hd : decodeLine p line with
  | skip => rw [hd] at h; simp [errOf] at h
  | measurement gd => rw [hd] at h; simp [errOf] at h
  | serviceError msg =>
    rw [hd] at h; simp only [errOf, Option.some.injEq] at h
    rw [decodeLoop, hd, ← h]
  | timeError fld =>
    rw [hd] at h; simp only [errOf, Option.some.injEq] at h
    rw [decodeLoop, hd, ← h]
  | valueError fld =>
    rw [hd] at h; simp only [errOf, Option.some.injEq] at h
    rw [decodeLoop, hd, ← h]

lemma decodeLoop_skip_line (p : String) (l : List Char) (h : decodeLine p l = .skip)
    (xs ys : List (List Char)) (gds : List GiroData) :
    decodeLoop p (xs ++ l :: ys) gds = decodeLoop p (xs ++ ys) gds := by
  induction xs generalizing gds with
  | nil =>
    show decodeLoop p (l :: ys) gds = _
    rw [decodeLoop, h]
    rfl
  | cons x tl ih =>
    rw [List.cons_append, List.cons_append]
    cases hd : decodeLine p x with
    | skip => rw [decodeLoop, hd, decodeLoop, hd]; exact ih gds
    | measurement gd => rw [decodeLoop, hd, decodeLoop, hd]; exact ih (gds ++ [gd])
    | serviceError msg => rw [decodeLoop, hd, decodeLoop, hd]
    | timeError fld => rw [decodeLoop, hd, decodeLoop, hd]
    | valueError fld => rw [decodeLoop, hd, decodeLoop, hd]

lemma noError_all_good (p : String) (lines : List (List Char)) :
    ∀ gds : List GiroData, (decodeLoop p lines gds).2 = none →
      ∀ l ∈ lines, isGoodLine p l = true := by
  induction lines with
  | nil => intro gds _ l hl; simp at hl
  | cons x tl ih =>
    intro gds hnone l hl
    rcases List.mem_cons.mp hl with rfl | hl
    · cases hd : decodeLine p l with
      | skip => simp [isGoodLine, hd]
      | measurement gd => simp [isGoodLine, hd]
      | serviceError msg => rw [decodeLoop, hd] at hnone; simp at hnone
      | timeError fld => rw [decodeLoop, hd] at hnone; simp at hnone
      | valueError fld => rw [decodeLoop, hd] at hnone; simp at hnone
    · cases hd : decodeLine p x with
      | skip =>
        rw [decodeLoop, hd] at hnone
        exact ih gds hnone l hl
      | measurement gd =>
        rw [decodeLoop, hd] at hnone
        exact ih (gds ++ [gd]) hnone l hl
      | serviceError msg => rw [decodeLoop, hd] at hnone; simp at hnone
      | timeError fld => rw [decodeLoop, hd] at hnone; simp at hnone
      | valueError fld => rw [decodeLoop, hd] at hnone; simp at hnone

lemma decodeLine_of_error_marker (p : String) (line : List Char)
    (h : goStartsWith ("ERROR: ".data) line = true) :
    decodeLine p line = .serviceError (goTrimSpace (line.drop 7)) := by
  obtain ⟨t, rfl⟩ : ∃ t, "ERROR: ".data ++ t = line :=
    List.isPrefixOf_iff_prefix.mp h
  have h1 : goStartsWith ("#".data) ("ERROR: ".data ++ t) = false := rfl
  have hdrop : ("ERROR: ".data ++ t).dropWhile goIsSpace = "ERROR: ".data ++ t := rfl
  have h2 : (goTrimSpace ("ERROR: ".data ++ t)).isEmpty = false := by
    apply Bool.eq_false_iff.mpr
    intro hemp
    have hnil : goTrimSpace ("ERROR: ".data ++ t) = [] := List.isEmpty_iff.mp hemp
    unfold goTrimSpace at hnil
    rw [List.reverse_eq_nil_iff, List.dropWhile_eq_nil_iff] at hnil
    have hE : ('E' : Char) ∈ ("ERROR: ".data ++ t).dropWhile goIsSpace := by
      rw [hdrop]
      exact List.mem_append_left _ (by decide)
    exact absurd (hnil 'E' (List.mem_reverse.mpr hE)) (by decide)
  unfold decodeLine
  rw [h1, h2]
  rw [if_neg (by simp)]
  rw [if_pos h]
  rfl

/-- Claim C5: for every stream that decodes without error, the series
returned by `GetGiroData` is the reverse of the wire order, so index 0
holds the most recent sample of a chronologically ascending stream. -/
theorem getGiroData_reverses_wire_order (p : String) (lines : List (List Char))
    (h : (getGiroData p lines).2 = none) :
    (getGiroData p lines).1 = (wireMeasurements p lines).reverse := by
  have hg : ∀ l ∈ lines, isGoodLine p l = true := noError_all_good p lines [] h
  unfold getGiroData
  have happ := decodeLoop_append_good p lines hg [] []
  rw [List.append_nil] at happ
  rw [happ]
  show (ReverseGiroData (wireAcc p lines []), (none : Option DecodeError)).1 = _
  rw [ReverseGiroData_eq_reverse]
  rfl

/-- Witness for C5: three data lines with ascending timestamps T1 < T2 < T3
decode to the series `[T3, T2, T1]`. -/
theorem getGiroData_reverses_wire_order_witness :
    (getGiroData "foF2"
        ["2023-01-18T19:00:00.000Z foF2 3225".data,
          "2023-01-18T19:05:00.000Z foF2 3250".data,
          "2023-01-18T19:10:00.000Z foF2 3300".data]).2 = none ∧
    (getGiroData "foF2"
        ["2023-01-18T19:00:00.000Z foF2 3225".data,
          "2023-01-18T19:05:00.000Z foF2 3250".data,
          "2023-01-18T19:10:00.000Z foF2 3300".data]).1 =
      [⟨⟨2023, 1, 18, 19, 10, 0, 0⟩, "foF2", 3300⟩,
        ⟨⟨2023, 1, 18, 19, 5, 0, 0⟩, "foF2", 3250⟩,
        ⟨⟨2023, 1, 18, 19, 0, 0, 0⟩, "foF2", 3225⟩] := by
  constructor
  · decide
  · rw [getGiroData_reverses_wire_order "foF2" _ (by decide)]
    decide

/-- Counterexample to C2 as stated: a stream with one valid data line
followed by an `ERROR: ` line returns the already decoded measurement
alongside the service-reported error — the partial series is not
discarded. -/
theorem serviceError_discard_counterexample :
    (getGiroData "foF2"
        ["2023-01-18T19:00:00.000Z foF2 3225".data, "ERROR: station not found".data]).1 =
      [⟨⟨2023, 1, 18, 19, 0, 0, 0⟩, "foF2", 3225⟩] ∧
    (getGiroData "foF2"
        ["2023-01-18T19:00:00.000Z foF2 3225".data, "ERROR: station not found".data]).2 =
      some (.serviceError ("station not found".data)) := by
  constructor
  · decide
  · decide

/-- Claim C2 (amended): on an `ERROR: `-prefixed line, decoding stops and a
service-reported error carrying the trimmed remainder of the line is
returned; the measurements decoded from earlier lines are returned
alongside the error, in wire order, rather than discarded. -/
theorem serviceError_returns_accumulated (p : String) (pre : List (List Char))
    (line : List Char) (rest : List (List Char))
    (hpre : ∀ l ∈ pre, isGoodLine p l = true)
    (hline : goStartsWith ("ERROR: ".data) line = true) :
    getGiroData p (pre ++ line :: rest) =
      (wireMeasurements p pre, some (.serviceError (goTrimSpace (line.drop 7)))) := by
  unfold getGiroData
  rw [decodeLoop_append_good p pre hpre (line :: rest) []]
  apply decodeLoop_error_line
  rw [decodeLine_of_error_marker p line hline]
  rfl

/-- Witness for C2 (amended): the remainder of the `ERROR: ` line is trimmed
of surrounding white space, and the earlier measurement is returned. -/
theorem serviceError_returns_accumulated_witness :
    (∀ l ∈ ["2023-01-18T19:00:00.000Z foF2 3225".data], isGoodLine "foF2" l = true) ∧
    goStartsWith ("ERROR: ".data) ("ERROR:  station not found ".data) = true ∧
    getGiroData "foF2"
        ["2023-01-18T19:00:00.000Z foF2 3225".data, "ERROR:  station not found ".data] =
      (wireMeasurements "foF2" ["2023-01-18T19:00:00.000Z foF2 3225".data],
        some (.serviceError (goTrimSpace (("ERROR:  station not found ".data).drop 7)))) :=
  ⟨by decide, by decide,
    serviceError_returns_accumulated "foF2" ["2023-01-18T19:00:00.000Z foF2 3225".data]
      ("ERROR:  station not found ".data) [] (by decide) (by decide)⟩

/-- Claim C10: whenever the decoder returns an error together with a partial
series, the partial series is in the service's chronological wire order:
the reversal runs only after the stream ends normally. -/
theorem decode_error_returns_wire_order (p : String) (pre : List (List Char))
    (line : List Char) (rest : List (List Char)) (e : DecodeError)
    (hpre : ∀ l ∈ pre, isGoodLine p l = true)
    (hline : errOf (decodeLine p line) = some e) :
    getGiroData p (pre ++ line :: rest) = (wireMeasurements p pre, some e) := by
  unfold getGiroData
  rw [decodeLoop_append_good p pre hpre (line :: rest) []]
  exact decodeLoop_error_line p line rest _ e hline

/-- Witness for C10: two data lines with ascending timestamps followed by a
malformed line yield the partial series in wire order — index 0 is the
oldest sample, not the latest. -/
theorem decode_error_returns_wire_order_witness :
    (∀ l ∈ ["2023-01-18T19:00:00.000Z foF2 3225".data,
        "2023-01-18T19:05:00.000Z foF2 3250".data], isGoodLine "foF2" l = true) ∧
    errOf (decodeLine "foF2" ("2023-01-18T19:10:00.000Z foF2 bad".data)) =
      some (.valueError ("bad".data)) ∧
    getGiroData "foF2"
        ["2023-01-18T19:00:00.000Z foF2 3225".data,
          "2023-01-18T19:05:00.000Z foF2 3250".data,
          "2023-01-18T19:10:00.000Z foF2 bad".data] =
      ([⟨⟨2023, 1, 18, 19, 0, 0, 0⟩, "foF2", 3225⟩,
          ⟨⟨2023, 1, 18, 19, 5, 0, 0⟩, "foF2", 3250⟩],
        some (.valueError ("bad".data))) :=
  ⟨by decide, by decide,
    (decode_error_returns_wire_order "foF2"
        ["2023-01-18T19:00:00.000Z foF2 3225".data,
          "2023-01-18T19:05:00.000Z foF2 3250".data]
        ("2023-01-18T19:10:00.000Z foF2 bad".data) [] (.valueError ("bad".data))
        (by decide) (by decide)).trans (by decide)⟩

/-- Claim C6: a timestamp field that fails to parse in the fixed wire
format, or a value field that fails to parse as a decimal float, stops
decoding with a malformed-input error, and the measurements accumulated
before the failing line are returned alongside the error. -/
theorem malformed_input_returns_accumulated (p : String) (pre : List (List Char))
    (line : List Char) (rest : List (List Char)) (f0 f1 f2 : List Char)
    (fs : List (List Char))
    (hskip : goStartsWith ("#".data) line = false ∧ (goTrimSpace line).isEmpty = false ∧
      goStartsWith ("ERROR: ".data) line = false)
    (hfields : goFields line = f0 :: f1 :: f2 :: fs)
    (hbad : parseGiroTime f0 = none ∨ (parseGiroTime f0 ≠ none ∧ parseValue f2 = none))
    (hpre : ∀ l ∈ pre, isGoodLine p l = true) :
    getGiroData p (pre ++ line :: rest) =
      (wireMeasurements p pre,
        some (if parseGiroTime f0 = none then DecodeError.timeError f0
          else DecodeError.valueError f2)) := by
  have hdl : decodeLine p line =
      (if parseGiroTime f0 = none then LineStep.timeError f0 else LineStep.valueError f2) := by
    unfold decodeLine
    rw [hskip.1, hskip.2.1]
    rw [if_neg (by simp)]
    rw [hskip.2.2]
    rw [if_neg (by simp)]
    simp only [hfields]
    rcases hbad with h0 | ⟨h0, h2⟩
    · simp [h0]
    · rcases hp : parseGiroTime f0 with _ | tv
      · exact absurd hp h0
      · simp [hp, h2]
  unfold getGiroData
  rw [decodeLoop_append_good p pre hpre (line :: rest) []]
  apply decodeLoop_error_line
  rw [hdl]
  by_cases h0 : parseGiroTime f0 = none
  · rw [if_pos h0, if_pos h0]
    rfl
  · rw [if_neg h0, if_neg h0]
    rfl

/-- Witness for C6: an out-of-range month makes the timestamp parse fail,
and the measurement decoded from the earlier line is returned alongside
the malformed-input error. -/
theorem malformed_input_returns_accumulated_witness :
    goFields ("2023-13-18T19:00:00.000Z foF2 3250".data) =
      ["2023-13-18T19:00:00.000Z".data, "foF2".data, "3250".data] ∧
    parseGiroTime ("2023-13-18T19:00:00.000Z".data) = none ∧
    getGiroData "foF2"
        ["2023-01-18T19:00:00.000Z foF2 3225".data,
          "2023-13-18T19:00:00.000Z foF2 3250".data] =
      (wireMeasurements "foF2" ["2023-01-18T19:00:00.000Z foF2 3225".data],
        some (if parseGiroTime ("2023-13-18T19:00:00.000Z".data) = none then
          DecodeError.timeError ("2023-13-18T19:00:00.000Z".data)
          else DecodeError.valueError ("3250".data))) :=
  ⟨by decide, by decide,
    malformed_input_returns_accumulated "foF2" ["2023-01-18T19:00:00.000Z foF2 3225".data]
      ("2023-13-18T19:00:00.000Z foF2 3250".data) [] ("2023-13-18T19:00:00.000Z".data)
      ("foF2".data) ("3250".data) [] (by decide) (by decide)
      (Or.inl (by decide)) (by decide)⟩

/-- Counterexample to C9 as stated: the line `ERROR: x` splits into two
whitespace-separated fields, fewer than 3, and nevertheless causes
`GetGiroData` to return an error. -/
theorem few_fields_line_errors_counterexample :
    (goFields ("ERROR: x".data)).length < 3 ∧
    (getGiroData "foF2" ["ERROR: x".data]).2 ≠ none := by
  constructor
  · decide
  · decide

/-- Claim C9 (amended): lines that are blank after trimming, lines beginning
with `#`, and lines with fewer than 3 whitespace-separated fields that do
not begin with `ERROR: ` contribute no measurement and never cause an
error — deleting such a line anywhere in the stream leaves the result
unchanged. -/
theorem ignorable_lines_never_contribute (p : String) (pre : List (List Char))
    (line : List Char) (rest : List (List Char))
    (hline : goStartsWith ("#".data) line = true ∨ goTrimSpace line = [] ∨
      (goStartsWith ("ERROR: ".data) line = false ∧ (goFields line).length < 3)) :
    getGiroData p (pre ++ line :: rest) = getGiroData p (pre ++ rest) := by
  have hdl : decodeLine p line = .skip := by
    unfold decodeLine
    rcases hline with h | h | ⟨he, hf⟩
    · rw [h]
      rw [if_pos (by simp)]
    · rw [h]
      rw [if_pos (by simp)]
    · by_cases hh : (goStartsWith ("#".data) line || (goTrimSpace line).isEmpty) = true
      · rw [if_pos hh]
      · rw [if_neg hh]
        rw [he]
        rw [if_neg (by simp)]
        rcases hg : goFields line with _ | ⟨a, _ | ⟨b, _ | ⟨c, tl⟩⟩⟩
        · rfl
        · rfl
        · rfl
        · rw [hg] at hf
          simp only [List.length_cons] at hf
          omega
  exact decodeLoop_skip_line p line hdl pre rest []

/-- Witness for C9 (amended): a comment line can be deleted from the stream
without changing the result. -/
theorem ignorable_lines_never_contribute_witness :
    (goStartsWith ("#".data) ("# Time foF2".data) = true ∨
      goTrimSpace ("# Time foF2".data) = [] ∨
      (goStartsWith ("ERROR: ".data) ("# Time foF2".data) = false ∧
        (goFields ("# Time foF2".data)).length < 3)) ∧
    getGiroData "foF2" ["# Time foF2".data, "2023-01-18T19:00:00.000Z foF2 3225".data] =
      getGiroData "foF2" ["2023-01-18T19:00:00.000Z foF2 3225".data] :=
  ⟨by decide, by
    have h := ignorable_lines_never_contribute "foF2" [] ("# Time foF2".data)
      ["2023-01-18T19:00:00.000Z foF2 3225".data] (by decide)
    simpa using h⟩

/-- Counterexample to C3 as stated: at a latest hmF2 value of exactly 10.0
both operations succeed — the source checks `gd[0].Value < 10.0`, strictly,
so the claimed failure at values ≤ 10.0 does not occur at the boundary. -/
theorem latest_value_ten_counterexample :
    DistanceByTOA 45 "JR055" ([⟨⟨2023, 1, 18, 19, 0, 0, 0⟩, "hmF2", 10⟩], none) =
      .ok (Distance 45 ((10 : ℚ) : ℝ)) ∧
    LatestTOA 100 "JR055" ([⟨⟨2023, 1, 18, 19, 0, 0, 0⟩, "hmF2", 10⟩], none) =
      .ok (TOA 100 ((10 : ℚ) : ℝ)) := by
  constructor
  · simp only [DistanceByTOA]
    rw [if_neg (by decide)]
  · simp only [LatestTOA]
    rw [if_neg (by decide)]

/-- Claim C3 (amended): `DistanceByTOA` and `LatestTOA` fail with the
no-data error when the fetched hmF2 series is empty, fail with the
invalid-value error when the latest (index 0) value is strictly below 10.0,
and otherwise apply `Distance` respectively `TOA` to the latest value. -/
theorem latest_hmF2_validation (toa dist : ℝ) (digisonde : String) (gd0 : GiroData)
    (gds : List GiroData) :
    (DistanceByTOA toa digisonde ([], none) = .error (.noData digisonde)) ∧
    (LatestTOA dist digisonde ([], none) = .error (.noData digisonde)) ∧
    (gd0.Value < 10 →
      DistanceByTOA toa digisonde (gd0 :: gds, none) = .error (.invalidValue digisonde) ∧
      LatestTOA dist digisonde (gd0 :: gds, none) = .error (.invalidValue digisonde)) ∧
    (¬ gd0.Value < 10 →
      DistanceByTOA toa digisonde (gd0 :: gds, none) = .ok (Distance toa (gd0.Value : ℝ)) ∧
      LatestTOA dist digisonde (gd0 :: gds, none) = .ok (TOA dist (gd0.Value : ℝ))) := by
  refine ⟨rfl, rfl, fun hlt => ⟨?_, ?_⟩, fun hge => ⟨?_, ?_⟩⟩
  · simp only [DistanceByTOA]
    rw [if_pos hlt]
  · simp only [LatestTOA]
    rw [if_pos hlt]
  · simp only [DistanceByTOA]
    rw [if_neg hge]
  · simp only [LatestTOA]
    rw [if_neg hge]

/-- Witness for C3 (amended): a latest value of 5 is rejected as invalid,
and the empty series yields the no-data error. -/
theorem latest_hmF2_validation_witness :
    ((⟨⟨2023, 1, 18, 19, 0, 0, 0⟩, "hmF2", 5⟩ : GiroData).Value < 10) ∧
    DistanceByTOA 45 "JR055" ([⟨⟨2023, 1, 18, 19, 0, 0, 0⟩, "hmF2", 5⟩], none) =
      .error (.invalidValue "JR055") ∧
    DistanceByTOA 45 "JR055" ([], none) = .error (.noData "JR055") :=
  ⟨by decide,
    ((latest_hmF2_validation 45 100 "JR055" ⟨⟨2023, 1, 18, 19, 0, 0, 0⟩, "hmF2", 5⟩
      []).2.2.1 (by decide)).1,
    (latest_hmF2_validation 45 100 "JR055" ⟨⟨2023, 1, 18, 19, 0, 0, 0⟩, "hmF2", 5⟩ []).1⟩

/-- Claim C1: the code contradicts the documented contract of
`SetDistanceForMUF`. After `SetDistanceForMUF(5000)` the package variable
`DMUF` holds `"5000"`, but the query built by `GetGiroData` still carries
`DMUF=3000`, because the source places `DefaultDMUF` — not `DMUF` — in the
`url.Values`. -/
theorem setDistanceForMUF_ignored_by_query :
    (SetDistanceForMUF 5000 initState).DMUF = "5000" ∧
    (giroQueryValues (SetDistanceForMUF 5000 initState) "MUFD" "JR055"
        "2023-01-18 19:00:00" "2023-01-18 20:00:00").lookup LgdcKeyDMUF = some "3000" := by
  constructor
  · decide
  · decide

/-! ## Monotonicity of the take-off angle -/

lemma earthR_pos : (0 : ℝ) < earthR := by
  unfold earthR
  positivity

lemma TOA_eq_toaCore (d h : ℝ) (h0 : 0 < d) (h1 : d < 20000) :
    TOA d h = toaCore (d * Real.pi / 40000) h := by
  have hπ : (0 : ℝ) < Real.pi := Real.pi_pos
  set t : ℝ := d * Real.pi / 40000 with htdef
  have ht0 : 0 < t := by positivity
  have htπ : t < Real.pi / 2 := by
    rw [htdef, div_lt_iff (by norm_num : (0 : ℝ) < 40000)]
    nlinarith
  have hc0 : (0 : ℝ) < Real.cos (t / 2) :=
    Real.cos_pos_of_mem_Ioo ⟨by linarith, by linarith⟩
  have hs0 : (0 : ℝ) < Real.sin (t / 2) :=
    Real.sin_pos_of_pos_of_lt_pi (by linarith) (by linarith)
  show (Real.arctan ((40000 / 2 / Real.pi * Real.sin (d / 40000 * (2 * Real.pi) / 2) /
      (Real.sin ((Real.pi - d / 40000 * (2 * Real.pi) / 2) / 2) /
        Real.cos ((Real.pi - d / 40000 * (2 * Real.pi) / 2) / 2)) + h) /
      (40000 / 2 / Real.pi * Real.sin (d / 40000 * (2 * Real.pi) / 2))) -
      d / 40000 * (2 * Real.pi) / 2) / Real.pi * 180 = _
  have ha : d / 40000 * (2 * Real.pi) / 2 = t := by
    rw [htdef]; ring
  rw [ha]
  have hb : (Real.pi - t) / 2 = Real.pi / 2 - t / 2 := by ring
  rw [hb, Real.sin_pi_div_two_sub, Real.cos_pi_div_two_sub]
  have hE : (40000 : ℝ) / 2 / Real.pi = earthR := by
    unfold earthR; norm_num
  rw [hE]
  have h2t : (2 : ℝ) * (t / 2) = t := by ring
  have hs2 : Real.sin t = 2 * Real.sin (t / 2) * Real.cos (t / 2) := by
    have hsm := Real.sin_two_mul (t / 2)
    rw [h2t] at hsm
    exact hsm
  have hcm := Real.cos_two_mul (t / 2)
  rw [h2t] at hcm
  have hsq := Real.sin_sq_add_cos_sq (t / 2)
  have hcos : 1 - Real.cos t = 2 * Real.sin (t / 2) ^ 2 := by nlinarith
  have hv : earthR * Real.sin t / (Real.cos (t / 2) / Real.sin (t / 2)) =
      earthR * (1 - Real.cos t) := by
    rw [hcos, hs2]
    field_simp
    ring
  rw [hv]
  rfl

lemma toaCore_hasDerivAt (h t : ℝ) (ht1 : 0 < t) (ht2 : t < Real.pi) :
    HasDerivAt (fun s => toaCore s h)
      ((1 / (1 + ((earthR * (1 - Real.cos t) + h) / (earthR * Real.sin t)) ^ 2) *
        ((earthR * Real.sin t * (earthR * Real.sin t) -
          (earthR * (1 - Real.cos t) + h) * (earthR * Real.cos t)) /
          (earthR * Real.sin t) ^ 2) - 1) / Real.pi * 180) t := by
  have hsin : 0 < Real.sin t := Real.sin_pos_of_pos_of_lt_pi ht1 ht2
  have hne : earthR * Real.sin t ≠ 0 := ne_of_gt (mul_pos earthR_pos hsin)
  have hN : HasDerivAt (fun s => earthR * (1 - Real.cos s) + h) (earthR * Real.sin t) t := by
    have h1 := ((hasDerivAt_const t (1 : ℝ)).sub (Real.hasDerivAt_cos t)).const_mul earthR
    have h2 := h1.add_const h
    convert h2 using 1
    ring
  have hD : HasDerivAt (fun s => earthR * Real.sin s) (earthR * Real.cos t) t :=
    (Real.hasDerivAt_sin t).const_mul earthR
  have hg := hN.div hD hne
  have harc := (Real.hasDerivAt_arctan
    ((earthR * (1 - Real.cos t) + h) / (earthR * Real.sin t))).comp t hg
  have hfin := ((harc.sub (hasDerivAt_id t)).div_const Real.pi).mul_const (180 : ℝ)
  exact hfin

lemma toaCore_deriv_neg (h : ℝ) (hh : 0 ≤ h) (t : ℝ) (ht1 : 0 < t) (ht2 : t < Real.pi) :
    deriv (fun s => toaCore s h) t < 0 := by
  have hd := toaCore_hasDerivAt h t ht1 ht2
  rw [hd.deriv]
  have hπ : (0 : ℝ) < Real.pi := Real.pi_pos
  have hsin : 0 < Real.sin t := Real.sin_pos_of_pos_of_lt_pi ht1 ht2
  have hc1 : Real.cos t < 1 := by
    have := Real.cos_lt_cos_of_nonneg_of_le_pi (le_refl 0) (le_of_lt ht2) ht1
    rwa [Real.cos_zero] at this
  have hR := earthR_pos
  have hN0 : 0 < earthR * (1 - Real.cos t) + h := by nlinarith
  have hD0 : 0 < earthR * Real.sin t := mul_pos hR hsin
  have hDne : earthR * Real.sin t ≠ 0 := ne_of_gt hD0
  have hsum : 0 < (earthR * Real.sin t) ^ 2 + (earthR * (1 - Real.cos t) + h) ^ 2 := by
    positivity
  have hkey : 1 / (1 + ((earthR * (1 - Real.cos t) + h) / (earthR * Real.sin t)) ^ 2) *
      ((earthR * Real.sin t * (earthR * Real.sin t) -
        (earthR * (1 - Real.cos t) + h) * (earthR * Real.cos t)) /
        (earthR * Real.sin t) ^ 2) - 1
      = -((earthR * (1 - Real.cos t) + h) * (earthR + h)) /
        ((earthR * Real.sin t) ^ 2 + (earthR * (1 - Real.cos t) + h) ^ 2) := by
    field_simp
    ring
  rw [hkey]
  have hfrac : -((earthR * (1 - Real.cos t) + h) * (earthR + h)) /
      ((earthR * Real.sin t) ^ 2 + (earthR * (1 - Real.cos t) + h) ^ 2) < 0 := by
    apply div_neg_of_neg_of_pos _ hsum
    nlinarith
  have hdiv : -((earthR * (1 - Real.cos t) + h) * (earthR + h)) /
      ((earthR * Real.sin t) ^ 2 + (earthR * (1 - Real.cos t) + h) ^ 2) / Real.pi < 0 :=
    div_neg_of_neg_of_pos hfrac hπ
  nlinarith

lemma toaCore_strictAntiOn (h : ℝ) (hh : 0 ≤ h) :
    StrictAntiOn (fun s => toaCore s h) (Set.Ioo 0 Real.pi) := by
  apply strictAntiOn_of_deriv_neg (convex_Ioo 0 Real.pi)
  · intro s hs
    exact ((toaCore_hasDerivAt h s hs.1 hs.2).differentiableAt).continuousAt.continuousWithinAt
  · intro s hs
    rw [interior_Ioo] at hs
    exact toaCore_deriv_neg h hh s hs.1 hs.2

/-- Strict monotonicity of `TOA` on the scan range, for any nonnegative peak
height: the take-off angle strictly decreases as the distance grows. -/
lemma TOA_strictAnti (h : ℝ) (hh : 0 ≤ h) (d1 d2 : ℝ) (h1 : 0 < d1) (h12 : d1 < d2)
    (h2 : d2 ≤ 6366) : TOA d2 h < TOA d1 h := by
  have hπ : (0 : ℝ) < Real.pi := Real.pi_pos
  have hd1 : d1 < 20000 := by linarith
  have hd2 : d2 < 20000 := by linarith
  rw [TOA_eq_toaCore d1 h h1 hd1, TOA_eq_toaCore d2 h (by linarith) hd2]
  have hm1 : d1 * Real.pi / 40000 ∈ Set.Ioo (0 : ℝ) Real.pi := by
    constructor
    · positivity
    · rw [div_lt_iff (by norm_num : (0 : ℝ) < 40000)]
      nlinarith
  have hm2 : d2 * Real.pi / 40000 ∈ Set.Ioo (0 : ℝ) Real.pi := by
    have hd2pos : 0 < d2 := lt_trans h1 h12
    constructor
    · positivity
    · rw [div_lt_iff (by norm_num : (0 : ℝ) < 40000)]
      nlinarith
  have hlt : d1 * Real.pi / 40000 < d2 * Real.pi / 40000 := by gcongr
  exact toaCore_strictAntiOn h hh hm1 hm2 hlt

/-- Claim C7: for fixed peak height above the validity floor, `TOA` is
monotonically non-increasing in distance over the scan range. -/
theorem TOA_nonincreasing_in_distance (hmf2 d1 d2 : ℝ) (hh : 10 < hmf2)
    (h1 : 1 ≤ d1) (h12 : d1 < d2) (h2 : d2 ≤ 6366) :
    TOA d1 hmf2 ≥ TOA d2 hmf2 :=
  (TOA_strictAnti hmf2 (by linarith) d1 d2 (by linarith) h12 h2).le

/-- Witness for C7: the chain `TOA(50) ≥ TOA(150) ≥ TOA(300)` at peak
height 267.4. -/
theorem TOA_nonincreasing_in_distance_witness :
    (10 : ℝ) < 267.4 ∧ TOA 50 267.4 ≥ TOA 150 267.4 ∧ TOA 150 267.4 ≥ TOA 300 267.4 :=
  ⟨by norm_num,
    TOA_nonincreasing_in_distance 267.4 50 150 (by norm_num) (by norm_num) (by norm_num)
      (by norm_num),
    TOA_nonincreasing_in_distance 267.4 150 300 (by norm_num) (by norm_num) (by norm_num)
      (by norm_num)⟩

/-! ## The bounded linear scan of `Distance` -/

lemma maxDistanceZ_eq : maxDistanceZ = 6366 := by
  unfold maxDistanceZ
  have h1 : (3.141592 : ℝ) < Real.pi := Real.pi_gt_3141592
  have h2 : Real.pi < 3.141593 := Real.pi_lt_3141593
  have hπ : (0 : ℝ) < Real.pi := Real.pi_pos
  have hx : (40000 : ℝ) / 2 / Real.pi = 20000 / Real.pi := by norm_num
  rw [round_eq, hx]
  apply Int.floor_eq_iff.mpr
  constructor
  · have hle : (6365.5 : ℝ) ≤ 20000 / Real.pi := by
      rw [le_div_iff hπ]
      nlinarith
    push_cast
    linarith
  · have hlt : (20000 : ℝ) / Real.pi < 6366.5 := by
      rw [div_lt_iff hπ]
      nlinarith
    push_cast
    linarith

lemma maxDistanceZ_toNat : maxDistanceZ.toNat = 6366 := by
  rw [maxDistanceZ_eq]
  rfl

lemma maxDistance_eq : maxDistance = 6366 := by
  unfold maxDistance
  rw [maxDistanceZ_eq]
  norm_num

lemma distanceLoop_char (toa hmf2 : ℝ) (maxD : ℕ) :
    ∀ fuel d : ℕ, maxD - d ≤ fuel → d ≤ maxD →
      ((∀ e : ℕ, d ≤ e → e < maxD → ¬ TOA (e : ℝ) hmf2 < toa) ∧
        distanceLoop toa hmf2 maxD d = (maxD : ℝ))
      ∨ (∃ e : ℕ, d ≤ e ∧ e < maxD ∧ TOA (e : ℝ) hmf2 < toa ∧
          (∀ i : ℕ, d ≤ i → i < e → ¬ TOA (i : ℝ) hmf2 < toa) ∧
          distanceLoop toa hmf2 maxD d = (e : ℝ) - 1) := by
  intro fuel
  induction fuel with
  | zero =>
    intro d hfuel hd
    have hdm : d = maxD := by omega
    left
    constructor
    · intro e he1 he2
      omega
    · rw [distanceLoop, if_neg (by omega), hdm]
  | succ n ih =>
    intro d hfuel hd
    by_cases hdm : d < maxD
    · by_cases htoa : TOA (d : ℝ) hmf2 < toa
      · right
        refine ⟨d, le_refl d, hdm, htoa, fun i hi1 hi2 => absurd hi1 (by omega), ?_⟩
        rw [distanceLoop, if_pos hdm, if_pos htoa]
      · have hrec : distanceLoop toa hmf2 maxD d = distanceLoop toa hmf2 maxD (d + 1) := by
          rw [distanceLoop, if_pos hdm, if_neg htoa]
        rcases ih (d + 1) (by omega) (by omega) with ⟨hall, heq⟩ | ⟨e, he1, he2, he3, hmin, heq⟩
        · left
          refine ⟨fun e he1 he2 => ?_, by rw [hrec, heq]⟩
          rcases Nat.eq_or_lt_of_le he1 with rfl | hgt
          · exact htoa
          · exact hall e hgt he2
        · right
          refine ⟨e, by omega, he2, he3, fun i hi1 hi2 => ?_, by rw [hrec, heq]⟩
          rcases Nat.eq_or_lt_of_le hi1 with rfl | hgt
          · exact htoa
          · exact hmin i hgt hi2
    · left
      have hdm2 : d = maxD := by omega
      refine ⟨fun e he1 he2 => by omega, ?_⟩
      rw [distanceLoop, if_neg hdm, hdm2]

/-- Characterization of `Distance` shared by the scan-specification and
round-trip results: either no scanned distance undershoots the target and
the result is `maxDistance`, or the result is one less than the first
scanned distance whose `TOA` drops strictly below the target. -/
lemma Distance_char (toa hmf2 : ℝ) :
    ((∀ e : ℕ, 1 ≤ e → e < 6366 → ¬ TOA (e : ℝ) hmf2 < toa) ∧
      Distance toa hmf2 = maxDistance)
    ∨ (∃ e : ℕ, 1 ≤ e ∧ e < 6366 ∧ TOA (e : ℝ) hmf2 < toa ∧
        (∀ i : ℕ, 1 ≤ i → i < e → ¬ TOA (i : ℝ) hmf2 < toa) ∧
        Distance toa hmf2 = (e : ℝ) - 1) := by
  unfold Distance
  rw [maxDistanceZ_toNat]
  have h := distanceLoop_char toa hmf2 6366 6366 1 (by omega) (by omega)
  rcases h with ⟨hall, heq⟩ | ⟨e, he1, he2, he3, hmin, heq⟩
  · left
    refine ⟨hall, ?_⟩
    rw [heq, maxDistance_eq]
    norm_num
  · right
    exact ⟨e, he1, he2, he3, hmin, heq⟩

/-- Claim C4: `Distance(toa, h)` scans distances 1, 2, 3, … km and returns
`d - 1` for the first integer distance `d` at which `TOA(d, h)` drops
strictly below `toa`; if no distance below `maxDistance = round(40000/2π)`
undershoots the target, it returns `maxDistance`. -/
theorem Distance_scan_spec (toa hmf2 : ℝ) :
    (∃ d : ℕ, 1 ≤ d ∧ (d : ℝ) < maxDistance ∧ TOA (d : ℝ) hmf2 < toa ∧
      (∀ e : ℕ, 1 ≤ e → e < d → ¬ TOA (e : ℝ) hmf2 < toa) ∧
      Distance toa hmf2 = (d : ℝ) - 1)
    ∨ ((∀ d : ℕ, 1 ≤ d → (d : ℝ) < maxDistance → ¬ TOA (d : ℝ) hmf2 < toa) ∧
      Distance toa hmf2 = maxDistance) := by
  rcases Distance_char toa hmf2 with ⟨hall, heq⟩ | ⟨e, he1, he2, he3, hmin, heq⟩
  · right
    refine ⟨fun d hd1 hd2 => hall d hd1 ?_, heq⟩
    rw [maxDistance_eq] at hd2
    exact_mod_cast hd2
  · left
    refine ⟨e, he1, ?_, he3, hmin, heq⟩
    rw [maxDistance_eq]
    exact_mod_cast he2

/-! ## The round trip `Distance ∘ TOA` and the worked example -/

/-- Claim C8 (amended, round-trip part): for peak height 267.4 and every
integer distance `d` strictly between 1 and `maxDistance`, the scan of
`Distance` applied to `TOA(d, 267.4)` lands within 1 km of `d` (it returns
`d` exactly for `d ≤ 6364`, and `maxDistance = 6366` for `d = 6365`). -/
theorem Distance_TOA_roundtrip (d : ℕ) (hd2 : 2 ≤ d) (hd65 : d ≤ 6365) :
    |Distance (TOA (d : ℝ) 267.4) 267.4 - (d : ℝ)| ≤ 1 := by
  have hh : (0 : ℝ) ≤ 267.4 := by norm_num
  have hdpos : (0 : ℝ) < (d : ℝ) := by exact_mod_cast (by omega : 0 < d)
  have hdle : (d : ℝ) ≤ 6365 := by exact_mod_cast hd65
  rcases Distance_char (TOA (d : ℝ) 267.4) 267.4 with ⟨hall, heq⟩ | ⟨e, he1, he2, he3, hmin, heq⟩
  · by_cases hd : d ≤ 6364
    · exfalso
      apply hall (d + 1) (by omega) (by omega)
      have hstep : TOA ((d : ℝ) + 1) 267.4 < TOA (d : ℝ) 267.4 := by
        have hdle4 : (d : ℝ) ≤ 6364 := by exact_mod_cast hd
        exact TOA_strictAnti 267.4 hh (d : ℝ) ((d : ℝ) + 1) hdpos (by linarith) (by linarith)
      push_cast
      exact hstep
    · have hd' : d = 6365 := by omega
      rw [heq, maxDistance_eq, hd']
      norm_num
  · have hed : d < e := by
      by_contra hle
      push_neg at hle
      rcases Nat.eq_or_lt_of_le hle with rfl | hlt
      · exact absurd he3 (lt_irrefl _)
      · have hepos : (0 : ℝ) < (e : ℝ) := by
          exact_mod_cast (by omega : 0 < e)
        have helt : (e : ℝ) < (d : ℝ) := by exact_mod_cast hlt
        have := TOA_strictAnti 267.4 hh (e : ℝ) (d : ℝ) hepos helt (by linarith)
        exact absurd he3 (asymm this)
    have hee : e = d + 1 := by
      by_contra hne
      have hgt : d + 1 < e := by omega
      apply hmin (d + 1) (by omega) hgt
      have hstep : TOA ((d : ℝ) + 1) 267.4 < TOA (d : ℝ) 267.4 := by
        have hele : (e : ℝ) ≤ 6366 := by
          have : e ≤ 6366 := by omega
          exact_mod_cast this
        have hdle2 : (d : ℝ) + 1 ≤ 6366 := by
          have : (d : ℝ) + 1 < (e : ℝ) := by exact_mod_cast hgt
          linarith
        exact TOA_strictAnti 267.4 hh (d : ℝ) ((d : ℝ) + 1) hdpos (by linarith) hdle2
      push_cast
      exact hstep
    rw [heq, hee]
    push_cast
    norm_num

/-- Witness for C8 (amended): the round trip at `d = 100`. -/
theorem Distance_TOA_roundtrip_witness :
    2 ≤ 100 ∧ 100 ≤ 6365 ∧
      |Distance (TOA ((100 : ℕ) : ℝ) 267.4) 267.4 - ((100 : ℕ) : ℝ)| ≤ 1 :=
  ⟨by norm_num, by norm_num, Distance_TOA_roundtrip 100 (by norm_num) (by norm_num)⟩

lemma one_sub_cos_le_sq (x : ℝ) (hx : 0 ≤ x) (hx2 : x ≤ Real.pi) :
    1 - Real.cos x ≤ x ^ 2 / 2 := by
  have h2t : (2 : ℝ) * (x / 2) = x := by ring
  have hcm := Real.cos_two_mul (x / 2)
  rw [h2t] at hcm
  have hsq := Real.sin_sq_add_cos_sq (x / 2)
  have hsin_le : Real.sin (x / 2) ≤ x / 2 := Real.sin_le (by linarith)
  have hsin_nonneg : 0 ≤ Real.sin (x / 2) :=
    Real.sin_nonneg_of_nonneg_of_le_pi (by linarith) (by linarith)
  have hs2 : Real.sin (x / 2) ^ 2 ≤ (x / 2) ^ 2 := by nlinarith
  nlinarith

set_option maxHeartbeats 2000000 in
/-- Counterexample to C8's worked example: `TOA(100, 267.4)` is below 81.45
degrees (its value is ≈ 78.96), so it is not within 1 degree of the claimed
82.45 — the README pairs outputs of different data snapshots. -/
theorem TOA_worked_example_false : ¬ |TOA 100 267.4 - 82.45| ≤ 1 := by
  have hπ1 : (3.141592 : ℝ) < Real.pi := Real.pi_gt_3141592
  have hπ2 : Real.pi < 3.141593 := Real.pi_lt_3141593
  have hπ : (0 : ℝ) < Real.pi := Real.pi_pos
  suffices hlt : TOA 100 267.4 < 81.45 by
    intro habs
    have := abs_le.mp habs
    linarith [this.1]
  rw [TOA_eq_toaCore 100 267.4 (by norm_num) (by norm_num)]
  unfold toaCore
  set t : ℝ := 100 * Real.pi / 40000 with htdef
  have ht_lo : 0.00785 < t := by rw [htdef]; nlinarith
  have ht_hi : t < 0.00786 := by rw [htdef]; nlinarith
  have ht0 : 0 < t := by linarith
  have hR_lo : 6366.1 < earthR := by
    unfold earthR
    rw [lt_div_iff hπ]
    nlinarith
  have hR_hi : earthR < 6366.3 := by
    unfold earthR
    rw [div_lt_iff hπ]
    nlinarith
  have hEp : (0 : ℝ) < earthR := by linarith
  have hcos : 1 - Real.cos t ≤ t ^ 2 / 2 :=
    one_sub_cos_le_sq t (by linarith) (by linarith)
  have hcos0 : 0 ≤ 1 - Real.cos t := by
    have := Real.cos_le_one t
    linarith
  have ht2 : t ^ 2 < 0.00786 ^ 2 := by nlinarith
  have hNv : earthR * (1 - Real.cos t) + 267.4 < 267.6 := by
    have h1 : earthR * (1 - Real.cos t) ≤ earthR * (t ^ 2 / 2) :=
      mul_le_mul_of_nonneg_left hcos (le_of_lt hEp)
    have h2 : earthR * (t ^ 2 / 2) ≤ earthR * (0.00786 ^ 2 / 2) :=
      mul_le_mul_of_nonneg_left (by linarith) (le_of_lt hEp)
    have h3 : earthR * (0.00786 ^ 2 / 2) < 6366.3 * (0.00786 ^ 2 / 2) :=
      mul_lt_mul_of_pos_right hR_hi (by norm_num)
    nlinarith
  have hsin_gt : t - t ^ 3 / 4 < Real.sin t := Real.sin_gt_sub_cube ht0 (by linarith)
  have hcube : t ^ 3 ≤ 0.00786 ^ 3 := pow_le_pow_left (le_of_lt ht0) (le_of_lt ht_hi) 3
  have hDv : 49.96 < earthR * Real.sin t := by
    have ht3 : 0 < t - t ^ 3 / 4 := by nlinarith
    have h1 : earthR * (t - t ^ 3 / 4) < earthR * Real.sin t :=
      mul_lt_mul_of_pos_left hsin_gt hEp
    have h2 : 6366.1 * (t - t ^ 3 / 4) < earthR * (t - t ^ 3 / 4) :=
      mul_lt_mul_of_pos_right hR_lo ht3
    have h3 : (49.96 : ℝ) < 6366.1 * (t - t ^ 3 / 4) := by nlinarith
    linarith
  have hDv0 : 0 < earthR * Real.sin t := by linarith
  have hg : (earthR * (1 - Real.cos t) + 267.4) / (earthR * Real.sin t) < 5.36 := by
    rw [div_lt_iff hDv0]
    nlinarith
  have hc_pos : (0 : ℝ) < 81.45 * Real.pi / 180 := by positivity
  have hc_lt : 81.45 * Real.pi / 180 < Real.pi / 2 := by linarith
  have hu_pos : (0 : ℝ) < Real.pi / 2 - 81.45 * Real.pi / 180 := by linarith
  have hu_hi : Real.pi / 2 - 81.45 * Real.pi / 180 < 0.1493 := by linarith
  have hcos_c : Real.cos (81.45 * Real.pi / 180) =
      Real.sin (Real.pi / 2 - 81.45 * Real.pi / 180) :=
    (Real.sin_pi_div_two_sub _).symm
  have hsin_c : Real.sin (81.45 * Real.pi / 180) =
      Real.cos (Real.pi / 2 - 81.45 * Real.pi / 180) :=
    (Real.cos_pi_div_two_sub _).symm
  have hcosc_pos : 0 < Real.cos (81.45 * Real.pi / 180) :=
    Real.cos_pos_of_mem_Ioo ⟨by linarith, hc_lt⟩
  have hcosc_hi : Real.cos (81.45 * Real.pi / 180) < 0.1493 := by
    rw [hcos_c]
    have hle := Real.sin_le (le_of_lt hu_pos)
    linarith
  have hsinc_lo : 0.988 < Real.sin (81.45 * Real.pi / 180) := by
    rw [hsin_c]
    have hb := one_sub_cos_le_sq (Real.pi / 2 - 81.45 * Real.pi / 180)
      (le_of_lt hu_pos) (by linarith)
    have hu2 : (Real.pi / 2 - 81.45 * Real.pi / 180) ^ 2 < 0.1493 ^ 2 := by nlinarith
    nlinarith
  have htan : 5.36 < Real.tan (81.45 * Real.pi / 180) := by
    rw [Real.tan_eq_sin_div_cos, lt_div_iff hcosc_pos]
    nlinarith
  have harctan : Real.arctan ((earthR * (1 - Real.cos t) + 267.4) / (earthR * Real.sin t)) <
      81.45 * Real.pi / 180 := by
    have h1 := Real.arctan_strictMono (lt_trans hg htan)
    rwa [Real.arctan_tan (by linarith) hc_lt] at h1
  rw [div_mul_eq_mul_div, div_lt_iff hπ]
  nlinarith [harctan, ht0]

end Hfprop
